import Mathlib

/-!
Shallow embedding of `src/Assignment2/Part3/benchmark.py`.

The repository is a benchmarking decorator `benchmark(warmups, iter, verbose,
csv_file)` plus a threaded demonstration driver `test`.  We embed:

* a Run Record, the Python tuple `(i + 1, is_warmup, execution_time)`;
* `start_runs`, the inner loop that executes the wrapped callable `n` times,
  timing each execution with `perf_counter` and appending one record per run;
* the `wrapper` body: warmup phase, measured phase, optional CSV write,
  statistics table built with `statistics.mean` / `statistics.variance`
  guarded by `len(...) > 1`;
* the driver `test`, which wraps a multi-threaded experiment with
  `benchmark(warmups=0, iter=test_iterations, verbose=True,
  csv_file=f_<threads>_<runs>.csv)` and invokes each wrapped task once.

Durations returned by `perf_counter` differences are external inputs, so the
wrapped callable is modelled as an oracle `Nat → Option ℚ` mapping the index
of each execution (counted from 0 across the whole wrapper invocation) to
`some duration` when the call completes and `none` when it raises an
exception.  Timings are rationals standing for the Python floats; no claim
depends on float rounding.  The file system is modelled as the contents of
the configured output path, `Option (List String)` (one string per line,
`none` when the file does not exist).  Standard output is modelled by the
statistics table only (the `verbose` per-run echo lines are not needed by
any property and are omitted from the observable state).
-/

/-- A Run Record: the Python tuple `(run num, is warmup, timing)` built by
`runs.append((i + 1, is_warmup, execution_time))`. -/
abbrev RunRec := Nat × Bool × ℚ

/-- Oracle for a callable that never raises: execution number `i` completes
with duration `d i`. -/
def totalOracle (d : Nat → ℚ) : Nat → Option ℚ := fun i => some (d i)

/-- Loop body of `start_runs`: `for i in range(n)` execute the callable once
and append `(i + 1, is_warmup, execution_time)`.  `base` is the number of
executions performed before this phase started (so `base + i` is the global
execution index handed to the oracle), `i` is the current loop index and `k`
the number of iterations still to perform.  Returns the records appended, the
number of executions performed, and whether the callable raised (in which
case the loop stops: remaining iterations are not executed). -/
def start_runsAux (oracle : Nat → Option ℚ) (base : Nat) (isW : Bool) :
    Nat → Nat → List RunRec × Nat × Bool
  | _, 0 => ([], 0, false)
  | i, k + 1 =>
    match oracle (base + i) with
    | none => ([], 1, true)
    | some d =>
      let p := start_runsAux oracle base isW (i + 1) k
      ((i + 1, isW, d) :: p.1, p.2.1 + 1, p.2.2)

/-- `start_runs(n, is_warmup, title)`: run the callable `n` times, one record
per completed run. -/
def start_runs (oracle : Nat → Option ℚ) (base n : Nat) (isW : Bool) :
    List RunRec × Nat × Bool :=
  start_runsAux oracle base isW 0 n

/-- `statistics.mean`: defined only on nonempty data (raises otherwise). -/
def mean? (xs : List ℚ) : Option ℚ :=
  if xs.length = 0 then none else some (xs.sum / (xs.length : ℚ))

/-- `statistics.variance`: sample variance; defined only on two or more data
points (raises `StatisticsError` otherwise). -/
def variance? (xs : List ℚ) : Option ℚ :=
  if xs.length < 2 then none
  else
    match mean? xs with
    | none => none
    | some m => some ((xs.map (fun x => (x - m) ^ 2)).sum / ((xs.length - 1 : ℕ) : ℚ))

/-- Value of `statistics.mean` on nonempty data. -/
def mean_val (xs : List ℚ) : ℚ := xs.sum / (xs.length : ℚ)

/-- Value of `statistics.variance` on two or more data points. -/
def variance_val (xs : List ℚ) : ℚ :=
  (xs.map (fun x => (x - mean_val xs) ^ 2)).sum / ((xs.length - 1 : ℕ) : ℚ)

/-- One printed line of the statistics table: the header
`is_warmup  rounds  mean  variance` or a data row for one phase. -/
inductive TableLine where
  | header : TableLine
  | row (is_warmup : Bool) (rounds : Nat) (m v : ℚ) : TableLine
deriving DecidableEq, Repr

/-- The guarded statistics step for one phase:
`if len(times) > 1: print(cols.format(..., mean(times), variance(times)))`.
The `Except.error` arm is the `StatisticsError` that `mean` / `variance`
would raise if applied outside their precondition. -/
def phase_row (isW : Bool) (times : List ℚ) : Except Unit (List TableLine) :=
  if 1 < times.length then
    match mean? times, variance? times with
    | some m, some v => Except.ok [TableLine.row isW times.length m v]
    | _, _ => Except.error ()
  else Except.ok []

/-- The statistics table printed after the runs: header line, then the
guarded warmup row, then the guarded measured row. -/
def print_table (warmup_times execution_times : List ℚ) :
    Except Unit (List TableLine) :=
  match phase_row true warmup_times, phase_row false execution_times with
  | Except.ok w, Except.ok e => Except.ok (TableLine.header :: (w ++ e))
  | _, _ => Except.error ()

/-- `",".join(map(str, r))` for one record: Python renders the int run
number, the bool as `True` / `False`, and the float timing. -/
def str_run (r : RunRec) : String :=
  toString r.1 ++ "," ++ (if r.2.1 then "True" else "False") ++ "," ++ toString r.2.2

/-- The lines written to the CSV file: the joined header
`run num,is warmup,timing` followed by one line per record of `all_runs`. -/
def csv_lines (all_runs : List RunRec) : List String :=
  "run num,is warmup,timing" :: all_runs.map str_run

/-- Configuration of the decorator:
`benchmark(warmups=0, iter=1, verbose=False, csv_file=None)`. -/
structure Config where
  warmups : Nat
  iter : Nat
  verbose : Bool
  csv_file : Option String
deriving DecidableEq, Repr

/-- Observable result of one invocation of the wrapped callable. -/
structure WrapResult where
  /-- Records created by the runs (on an exception, those created before it;
  Python discards them with the raised stack frame). -/
  runs : List RunRec
  /-- Number of executions of the wrapped callable. -/
  calls : Nat
  /-- Whether an exception from the callable propagated out of the wrapper. -/
  raised : Bool
  /-- Contents of the file at the configured output path afterwards. -/
  fs : Option (List String)
  /-- Statistics table printed on standard output. -/
  table : List TableLine
  /-- Whether the statistics step itself raised (`StatisticsError`). -/
  statsFault : Bool
deriving DecidableEq, Repr

/-- Body of `wrapper(*args, **kwargs)`: warmup runs, measured runs, optional
CSV write (opening the path with mode `w`, truncating any previous
contents), then the statistics table.  An exception from the callable
propagates at once: later phases, the write and the table do not happen. -/
def wrapper (cfg : Config) (oracle : Nat → Option ℚ)
    (fs0 : Option (List String)) : WrapResult :=
  let w := start_runs oracle 0 cfg.warmups true
  if w.2.2 then
    { runs := w.1, calls := w.2.1, raised := true, fs := fs0, table := [],
      statsFault := false }
  else
    let e := start_runs oracle cfg.warmups cfg.iter false
    if e.2.2 then
      { runs := w.1 ++ e.1, calls := w.2.1 + e.2.1, raised := true, fs := fs0,
        table := [], statsFault := false }
    else
      let all_runs := w.1 ++ e.1
      let fs1 :=
        match cfg.csv_file with
        | none => fs0
        | some _ => some (csv_lines all_runs)
      let warmup_times := w.1.map (fun r => r.2.2)
      let execution_times := e.1.map (fun r => r.2.2)
      match print_table warmup_times execution_times with
      | Except.error _ =>
        { runs := all_runs, calls := w.2.1 + e.2.1, raised := false, fs := fs1,
          table := [], statsFault := true }
      | Except.ok tbl =>
        { runs := all_runs, calls := w.2.1 + e.2.1, raised := false, fs := fs1,
          table := tbl, statsFault := false }

/-- The records one phase produces when no run raises: run numbers count
from 1 inside the phase. -/
def phase_records (d : Nat → ℚ) (base n : Nat) (isW : Bool) : List RunRec :=
  (List.range n).map (fun i => (i + 1, isW, d (base + i)))

/-- The durations of one phase when no run raises. -/
def phase_times (d : Nat → ℚ) (base n : Nat) : List ℚ :=
  (List.range n).map (fun i => d (base + i))

lemma start_runsAux_total (d : Nat → ℚ) (base : Nat) (isW : Bool) :
    ∀ k i, start_runsAux (totalOracle d) base isW i k =
      ((List.range k).map (fun t => (i + t + 1, isW, d (base + (i + t)))), k, false) := by
  intro k
  induction k with
  | zero => intro i; simp [start_runsAux]
  | succ k ih =>
    intro i
    have hlist : (List.range (k + 1)).map
          (fun t => (i + t + 1, isW, d (base + (i + t)))) =
        (i + 1, isW, d (base + i)) ::
          (List.range k).map
            (fun t => ((i + 1) + t + 1, isW, d (base + ((i + 1) + t)))) := by
      rw [List.range_succ_eq_map, List.map_cons, List.map_map]
      refine congrArg₂ List.cons (by simp) ?_
      refine List.map_congr_left ?_
      intro t ht
      simp only [Function.comp_apply, Nat.succ_eq_add_one, Prod.mk.injEq]
      exact ⟨by omega, trivial, congrArg d (by omega)⟩
    simp only [start_runsAux, totalOracle, ih (i + 1)]
    rw [hlist]

lemma start_runs_total (d : Nat → ℚ) (base n : Nat) (isW : Bool) :
    start_runs (totalOracle d) base n isW = (phase_records d base n isW, n, false) := by
  rw [start_runs, start_runsAux_total d base isW n 0, phase_records]
  simp

lemma start_runsAux_ok (oracle : Nat → Option ℚ) (base : Nat) (isW : Bool) :
    ∀ k i, (∀ t, t < k → (oracle (base + (i + t))).isSome = true) →
      ∃ runs, start_runsAux oracle base isW i k = (runs, k, false) := by
  intro k
  induction k with
  | zero => intro i _; exact ⟨[], rfl⟩
  | succ k ih =>
    intro i h
    have h0 : (oracle (base + i)).isSome = true := by
      have := h 0 (Nat.succ_pos k); simpa using this
    obtain ⟨d, hd⟩ := Option.isSome_iff_exists.mp h0
    obtain ⟨runs, hruns⟩ := ih (i + 1) (fun t ht => by
      have := h (t + 1) (by omega)
      simpa [Nat.add_assoc, Nat.add_comm 1 t] using this)
    refine ⟨(i + 1, isW, d) :: runs, ?_⟩
    simp [start_runsAux, hd, hruns]

lemma start_runsAux_raise (oracle : Nat → Option ℚ) (base : Nat) (isW : Bool) :
    ∀ m k i, m < k →
      (∀ t, t < m → (oracle (base + (i + t))).isSome = true) →
      oracle (base + (i + m)) = none →
      ∃ runs, start_runsAux oracle base isW i k = (runs, m + 1, true) := by
  intro m
  induction m with
  | zero =>
    intro k i hk _ hfail
    obtain ⟨k', rfl⟩ : ∃ k', k = k' + 1 := ⟨k - 1, by omega⟩
    refine ⟨[], ?_⟩
    have : oracle (base + i) = none := by simpa using hfail
    simp [start_runsAux, this]
  | succ m ih =>
    intro k i hk hpre hfail
    obtain ⟨k', rfl⟩ : ∃ k', k = k' + 1 := ⟨k - 1, by omega⟩
    have h0 : (oracle (base + i)).isSome = true := by
      have := hpre 0 (Nat.succ_pos m); simpa using this
    obtain ⟨d, hd⟩ := Option.isSome_iff_exists.mp h0
    obtain ⟨runs, hruns⟩ := ih k' (i + 1) (by omega)
      (fun t ht => by
        have := hpre (t + 1) (by omega)
        simpa [Nat.add_assoc, Nat.add_comm 1 t] using this)
      (by
        have : base + ((i + 1) + m) = base + (i + (m + 1)) := by omega
        rw [this]; exact hfail)
    refine ⟨(i + 1, isW, d) :: runs, ?_⟩
    simp [start_runsAux, hd, hruns]

lemma phase_row_ok (isW : Bool) (times : List ℚ) :
    phase_row isW times =
      Except.ok (if 1 < times.length then
        [TableLine.row isW times.length (mean_val times) (variance_val times)]
      else []) := by
  by_cases h : 1 < times.length
  · have h0 : ¬ times.length = 0 := by omega
    have h2 : ¬ times.length < 2 := by omega
    simp [phase_row, mean?, variance?, mean_val, variance_val, h, h0, h2]
  · simp [phase_row, h]

/-- The statistics table as a function of the two phases' duration lists. -/
def table_of (wt et : List ℚ) : List TableLine :=
  TableLine.header ::
    ((if 1 < wt.length then
        [TableLine.row true wt.length (mean_val wt) (variance_val wt)] else []) ++
     (if 1 < et.length then
        [TableLine.row false et.length (mean_val et) (variance_val et)] else []))

lemma print_table_ok (wt et : List ℚ) :
    print_table wt et = Except.ok (table_of wt et) := by
  rw [print_table, phase_row_ok, phase_row_ok, table_of]

lemma phase_records_times (d : Nat → ℚ) (base n : Nat) (isW : Bool) :
    (phase_records d base n isW).map (fun r => r.2.2) = phase_times d base n := by
  simp [phase_records, phase_times, List.map_map, Function.comp]

lemma wrapper_total (cfg : Config) (d : Nat → ℚ) (fs0 : Option (List String)) :
    wrapper cfg (totalOracle d) fs0 =
      { runs := phase_records d 0 cfg.warmups true ++
                phase_records d cfg.warmups cfg.iter false,
        calls := cfg.warmups + cfg.iter,
        raised := false,
        fs := match cfg.csv_file with
          | none => fs0
          | some _ => some (csv_lines (phase_records d 0 cfg.warmups true ++
              phase_records d cfg.warmups cfg.iter false)),
        table := table_of (phase_times d 0 cfg.warmups)
          (phase_times d cfg.warmups cfg.iter),
        statsFault := false } := by
  rw [wrapper]
  rw [start_runs_total, start_runs_total]
  simp only [List.map_append, phase_records_times, print_table_ok]
  simp

/-- Whether a table line is a data row for the given phase. -/
def is_row_for (isW : Bool) : TableLine → Bool
  | TableLine.header => false
  | TableLine.row b _ _ _ => b == isW

/-- Whether the printed table contains a data row for the given phase. -/
def has_phase_row (t : List TableLine) (isW : Bool) : Bool :=
  t.any (is_row_for isW)

lemma has_phase_row_table_of_true (wt et : List ℚ) :
    has_phase_row (table_of wt et) true = true ↔ 2 ≤ wt.length := by
  by_cases h1 : 1 < wt.length <;> by_cases h2 : 1 < et.length <;>
      simp [table_of, has_phase_row, is_row_for, h1, h2] <;> omega

lemma has_phase_row_table_of_false (wt et : List ℚ) :
    has_phase_row (table_of wt et) false = true ↔ 2 ≤ et.length := by
  by_cases h1 : 1 < wt.length <;> by_cases h2 : 1 < et.length <;>
      simp [table_of, has_phase_row, is_row_for, h1, h2] <;> omega

lemma phase_times_length (d : Nat → ℚ) (base n : Nat) :
    (phase_times d base n).length = n := by
  simp [phase_times]

/-- C1: one invocation of the wrapper with warmup count `w` and iteration
count `k` produces exactly `w + k` Run Records and no exception: first the
`w` warmup records with run numbers `1, …, w`, then the `k` measured records
with run numbers `1, …, k` (each phase numbered from 1 independently), every
warmup record before every measured record. -/
theorem C1_run_records (w k : Nat) (vb : Bool) (out : Option String)
    (d : Nat → ℚ) (fs0 : Option (List String)) :
    (wrapper ⟨w, k, vb, out⟩ (totalOracle d) fs0).runs =
      (List.range w).map (fun i => (i + 1, true, d i)) ++
        (List.range k).map (fun i => (i + 1, false, d (w + i))) ∧
    (wrapper ⟨w, k, vb, out⟩ (totalOracle d) fs0).runs.length = w + k ∧
    (wrapper ⟨w, k, vb, out⟩ (totalOracle d) fs0).raised = false := by
  rw [wrapper_total]
  refine ⟨?_, ?_, rfl⟩
  · simp [phase_records]
  · simp [phase_records]

/-- C2: with an output path configured, after all runs the file holds the
header line `run num,is warmup,timing` followed by one comma-separated line
per Run Record — warmup records first, then measured, in execution order,
each line made of the run number, `True` or `False`, and the duration — for
a total of `1 + (w + k)` lines. -/
theorem C2_csv_output (w k : Nat) (vb : Bool) (path : String)
    (d : Nat → ℚ) (fs0 : Option (List String)) :
    (wrapper ⟨w, k, vb, some path⟩ (totalOracle d) fs0).fs =
      some ("run num,is warmup,timing" ::
        (((List.range w).map (fun i => (i + 1, true, d i)) ++
          (List.range k).map (fun i => (i + 1, false, d (w + i)))).map
            (fun r : RunRec => toString r.1 ++ "," ++
              (if r.2.1 then "True" else "False") ++ "," ++ toString r.2.2))) ∧
    (((wrapper ⟨w, k, vb, some path⟩ (totalOracle d) fs0).fs).getD []).length =
      1 + (w + k) := by
  rw [wrapper_total]
  constructor
  · simp [csv_lines, str_run, phase_records, Function.comp]
    congr 1
  · simp [csv_lines, phase_records]
    omega

/-- C3: the statistics table has a data row for a phase iff that phase has
at least 2 Run Records; in particular with `warmup_count = 1` and
`iteration_count = 3` there is a measured-phase row and no warmup-phase
row. -/
theorem C3_table_rows (w k : Nat) (vb : Bool) (out : Option String)
    (d : Nat → ℚ) (fs0 : Option (List String)) :
    (has_phase_row (wrapper ⟨w, k, vb, out⟩ (totalOracle d) fs0).table true = true
      ↔ 2 ≤ w) ∧
    (has_phase_row (wrapper ⟨w, k, vb, out⟩ (totalOracle d) fs0).table false = true
      ↔ 2 ≤ k) ∧
    has_phase_row (wrapper ⟨1, 3, vb, out⟩ (totalOracle d) fs0).table false = true ∧
    has_phase_row (wrapper ⟨1, 3, vb, out⟩ (totalOracle d) fs0).table true = false := by
  simp only [wrapper_total]
  refine ⟨?_, ?_, ?_, ?_⟩
  · rw [has_phase_row_table_of_true, phase_times_length]
  · rw [has_phase_row_table_of_false, phase_times_length]
  · rw [has_phase_row_table_of_false, phase_times_length]
    omega
  · simp [table_of, has_phase_row, is_row_for, phase_times]

/-- C5: re-invoking the wrapper on the same output path overwrites the file
rather than appending: the contents after a second invocation equal the
contents of a single invocation started from any file state whatsoever, so
the line count after two invocations equals the count after one and the
final file depends only on the last invocation's records. -/
theorem C5_overwrite (w k : Nat) (vb : Bool) (path : String)
    (d1 d2 : Nat → ℚ) (fs0 fs1 : Option (List String)) :
    (wrapper ⟨w, k, vb, some path⟩ (totalOracle d2)
        ((wrapper ⟨w, k, vb, some path⟩ (totalOracle d1) fs0).fs)).fs =
      (wrapper ⟨w, k, vb, some path⟩ (totalOracle d2) fs1).fs ∧
    (((wrapper ⟨w, k, vb, some path⟩ (totalOracle d2)
        ((wrapper ⟨w, k, vb, some path⟩ (totalOracle d1) fs0).fs)).fs).getD []).length =
      (((wrapper ⟨w, k, vb, some path⟩ (totalOracle d2) fs1).fs).getD []).length := by
  simp only [wrapper_total]
  exact ⟨trivial, trivial⟩

/-- C6: the guarded statistics step's error branch is unreachable: for every
configuration the invocation completes without a runtime fault, and with
`iteration_count = 0` no measured-phase statistics row is emitted. -/
theorem C6_no_stats_fault (cfg : Config) (d : Nat → ℚ) (fs0 : Option (List String))
    (w : Nat) (vb : Bool) (out : Option String) :
    (wrapper cfg (totalOracle d) fs0).statsFault = false ∧
    (wrapper cfg (totalOracle d) fs0).raised = false ∧
    has_phase_row (wrapper ⟨w, 0, vb, out⟩ (totalOracle d) fs0).table false = false := by
  refine ⟨?_, ?_, ?_⟩
  · rw [wrapper_total]
  · rw [wrapper_total]
  · rw [wrapper_total]
    have het : phase_times d w 0 = [] := by simp [phase_times]
    rw [het]
    generalize phase_times d 0 w = wt
    by_cases h1 : 1 < wt.length <;>
      simp [table_of, has_phase_row, is_row_for, h1]

/-- C9: the statistics table header line is printed on every invocation,
even when no phase has at least 2 records: with `warmups = 0, iter = 1` the
printed table is exactly the header with no data rows beneath it. -/
theorem C9_header_always (cfg : Config) (d : Nat → ℚ) (fs0 : Option (List String))
    (vb : Bool) (out : Option String) :
    (wrapper cfg (totalOracle d) fs0).table.head? = some TableLine.header ∧
    (wrapper ⟨0, 1, vb, out⟩ (totalOracle d) fs0).table = [TableLine.header] := by
  constructor
  · rw [wrapper_total]
    rfl
  · rw [wrapper_total]
    simp [table_of, phase_times]

/-- C7: if the wrapped callable raises on its `j`-th execution (the earlier
executions completing normally), the exception propagates uncaught out of
the wrapper and the remaining runs of the invocation are not executed: the
callable is executed exactly `j + 1` times instead of `warmups + iter`. -/
theorem C7_exception_propagates (cfg : Config) (oracle : Nat → Option ℚ)
    (fs0 : Option (List String)) (j : Nat)
    (hj : j < cfg.warmups + cfg.iter)
    (hpre : ∀ i, i < j → (oracle i).isSome = true)
    (hfail : oracle j = none) :
    (wrapper cfg oracle fs0).raised = true ∧
    (wrapper cfg oracle fs0).calls = j + 1 := by
  by_cases hw : j < cfg.warmups
  · obtain ⟨runs, hruns⟩ := start_runsAux_raise oracle 0 true j cfg.warmups 0 hw
      (fun t ht => by simpa using hpre t (by omega))
      (by simpa using hfail)
    have hsw : start_runs oracle 0 cfg.warmups true = (runs, j + 1, true) := hruns
    simp [wrapper, hsw]
  · obtain ⟨wruns, hwr⟩ := start_runsAux_ok oracle 0 true cfg.warmups 0
      (fun t ht => by simpa using hpre t (by omega))
    obtain ⟨eruns, her⟩ := start_runsAux_raise oracle cfg.warmups false
      (j - cfg.warmups) cfg.iter 0 (by omega)
      (fun t ht => by
        have := hpre (cfg.warmups + t) (by omega)
        simpa using this)
      (by
        have hje : cfg.warmups + (0 + (j - cfg.warmups)) = j := by omega
        rw [hje]; exact hfail)
    have hsw : start_runs oracle 0 cfg.warmups true = (wruns, cfg.warmups, false) := hwr
    have hse : start_runs oracle cfg.warmups cfg.iter false =
        (eruns, (j - cfg.warmups) + 1, true) := her
    refine ⟨by simp [wrapper, hsw, hse], ?_⟩
    simp [wrapper, hsw, hse]
    omega

/-- A callable that completes its first execution and raises on the
second. -/
def fail_oracle : Nat → Option ℚ := fun i => if i = 0 then some 1 else none

/-- Witness for C7: one warmup run and one measured run, the callable raises
on the second execution; the wrapper propagates it after exactly 2
executions. -/
theorem C7_exception_propagates_witness :
    1 < (⟨1, 1, false, none⟩ : Config).warmups + (⟨1, 1, false, none⟩ : Config).iter ∧
    (∀ i, i < 1 → (fail_oracle i).isSome = true) ∧
    fail_oracle 1 = none ∧
    (wrapper ⟨1, 1, false, none⟩ fail_oracle none).raised = true ∧
    (wrapper ⟨1, 1, false, none⟩ fail_oracle none).calls = 1 + 1 :=
  ⟨by decide, by decide, by decide,
    C7_exception_propagates ⟨1, 1, false, none⟩ fail_oracle none 1
      (by decide) (by decide) (by decide)⟩

/-- C10: the CSV write happens only after all runs complete: when the
wrapped callable raises during any run, the output file is neither created
nor modified by that invocation — the file state afterwards equals the file
state before. -/
theorem C10_no_partial_write (cfg : Config) (oracle : Nat → Option ℚ)
    (fs0 : Option (List String)) :
    (wrapper cfg oracle fs0).raised = true → (wrapper cfg oracle fs0).fs = fs0 := by
  intro h
  by_cases h1 : (start_runs oracle 0 cfg.warmups true).2.2
  · simp [wrapper, h1]
  · by_cases h2 : (start_runs oracle cfg.warmups cfg.iter false).2.2
    · simp [wrapper, h1, h2]
    · exfalso
      rw [wrapper] at h
      simp only [h1, h2, if_false, Bool.false_eq_true] at h
      split at h <;> simp_all

/-- A callable that raises on its first execution. -/
def none_oracle : Nat → Option ℚ := fun _ => none

/-- Witness for C10: the callable raises at once with an output path
configured and no pre-existing file; the file stays absent. -/
theorem C10_no_partial_write_witness :
    (wrapper ⟨0, 1, false, some "f.csv"⟩ none_oracle none).raised = true ∧
    (wrapper ⟨0, 1, false, some "f.csv"⟩ none_oracle none).fs = none :=
  ⟨by decide,
    C10_no_partial_write ⟨0, 1, false, some "f.csv"⟩ none_oracle none (by decide)⟩

/-- Per-worker loop of the experiment: `for _ in range(n_runs): f()` — the
number of calls to the workload `f` that a single worker thread makes. -/
def repeat_function_calls (n_runs : Nat) : Nat :=
  (List.range n_runs).foldl (fun c _ => c + 1) 0

/-- Workload calls of one execution of `experiment`: `n_threads` workers are
spawned with `Thread(target=repeat_function)`, started, and joined.  The
workers share no mutable state, so the observable workload-call count of the
joined task is the sum of the per-worker counts. -/
def experiment_calls (n_threads n_runs : Nat) : Nat :=
  ((List.range n_threads).map (fun _ => repeat_function_calls n_runs)).sum

/-- Decorator arguments the driver `run_threaded` uses for one
configuration: `benchmark(warmups=0, iter=test_iterations, verbose=True,
csv_file=f_<n_threads>_<n_runs>.csv)`. -/
def run_threaded_config (test_iterations n_threads n_runs : Nat) : Config :=
  { warmups := 0, iter := test_iterations, verbose := true,
    csv_file := some ("f_" ++ toString n_threads ++ "_" ++ toString n_runs ++ ".csv") }

/-- The driver `test`: the four configurations in order, each with the
decorator arguments used and the number of times the wrapped task is
invoked (each `run_threaded(...)()` expression is evaluated exactly once). -/
def test_calls (test_iterations : Nat) : List ((Nat × Nat) × Config × Nat) :=
  [((1, 16), run_threaded_config test_iterations 1 16, 1),
   ((2, 8), run_threaded_config test_iterations 2 8, 1),
   ((4, 4), run_threaded_config test_iterations 4 4, 1),
   ((8, 2), run_threaded_config test_iterations 8 2, 1)]

/-- Total workload invocations one driver configuration issues: the wrapper
executes the wrapped task `warmups + iter` times (`wrapper_total`), and each
execution of the experiment calls the workload `experiment_calls` times. -/
def test_config_calls (test_iterations n_threads n_runs : Nat) : Nat :=
  ((run_threaded_config test_iterations n_threads n_runs).warmups +
    (run_threaded_config test_iterations n_threads n_runs).iter) *
    experiment_calls n_threads n_runs

/-- C4 as stated is false: with `test_iterations = 2` (the value the script
itself uses) the configuration with 1 thread and 16 runs per thread issues
32 workload invocations, not 16, because the wrapper repeats the task once
per measured iteration. -/
theorem C4_sixteen_calls_counterexample :
    test_config_calls 2 1 16 = 32 ∧ ¬ test_config_calls 2 1 16 = 16 := by
  constructor <;> decide

/-- C4 amended: each single execution of a configuration's task issues
exactly `threads * runs_per_thread = 16` workload invocations regardless of
thread count, every worker calling the workload exactly `runs_per_thread`
times; the driver therefore issues `16 * test_iterations` invocations per
configuration, since the wrapper repeats the task `test_iterations` times. -/
theorem C4_sixteen_calls_per_execution (ti : Nat) :
    experiment_calls 1 16 = 16 ∧ experiment_calls 2 8 = 16 ∧
    experiment_calls 4 4 = 16 ∧ experiment_calls 8 2 = 16 ∧
    repeat_function_calls 16 = 16 ∧ repeat_function_calls 8 = 8 ∧
    repeat_function_calls 4 = 4 ∧ repeat_function_calls 2 = 2 ∧
    test_config_calls ti 1 16 = 16 * ti ∧ test_config_calls ti 2 8 = 16 * ti ∧
    test_config_calls ti 4 4 = 16 * ti ∧ test_config_calls ti 8 2 = 16 * ti := by
  refine ⟨by decide, by decide, by decide, by decide, by decide, by decide,
    by decide, by decide, ?_, ?_, ?_, ?_⟩
  · have h : experiment_calls 1 16 = 16 := by decide
    simp only [test_config_calls, run_threaded_config, h]
    omega
  · have h : experiment_calls 2 8 = 16 := by decide
    simp only [test_config_calls, run_threaded_config, h]
    omega
  · have h : experiment_calls 4 4 = 16 := by decide
    simp only [test_config_calls, run_threaded_config, h]
    omega
  · have h : experiment_calls 8 2 = 16 := by decide
    simp only [test_config_calls, run_threaded_config, h]
    omega

/-- C8: for each of the four driver configurations, the task is wrapped with
warmup count 0, iteration count `test_iterations`, verbose enabled, and the
output file `f_<threads>_<runs>.csv` named from the configuration's thread
and run counts, and the wrapped task is invoked exactly once. -/
theorem C8_driver_wrapping (ti : Nat) :
    test_calls ti =
      [((1, 16), ⟨0, ti, true, some "f_1_16.csv"⟩, 1),
       ((2, 8), ⟨0, ti, true, some "f_2_8.csv"⟩, 1),
       ((4, 4), ⟨0, ti, true, some "f_4_4.csv"⟩, 1),
       ((8, 2), ⟨0, ti, true, some "f_8_2.csv"⟩, 1)] := by
  rfl
